import Mathlib

/-! Verification of the line-selection and group-statistics engine in
`orangecontrib/prototypes/widgets/owlineplot.py` (orange3-prototypes).

Modelling conventions: floating-point values are embedded as exact
rationals; a NaN entry of a data matrix is `none : Option ℚ`; a Python
set of ints is a `Finset ℕ`; datasets are lists of rows.  Qt/pyqtgraph
rendering calls carry no selection or statistics content and are not
modelled. -/

/-- A 2-D point (the `point` namedtuple used by the geometry helpers),
with exact rational coordinates. -/
structure Point where
  x : ℚ
  y : ℚ
deriving DecidableEq

/-- Translation of `ccw(a, b, c)` (owlineplot.py lines 31-35):
`(c.y - a.y) * (b.x - a.x) > (b.y - a.y) * (c.x - a.x)`; collinear
configurations make the comparison an equality and return false. -/
def ccw (a b c : Point) : Bool :=
  decide ((c.y - a.y) * (b.x - a.x) > (b.y - a.y) * (c.x - a.x))

/-- Translation of `intersects(a, b, c, d)` (owlineplot.py lines 38-43):
`ccw(a, c, d) != ccw(b, c, d) and ccw(a, b, c) != ccw(a, b, d)`. -/
def intersects (a b c d : Point) : Bool :=
  (ccw a c d != ccw b c d) && (ccw a b c != ccw a b d)

/-- Twice the signed area of the triangle (a, b, c); `ccw a b c` is exactly
the test `detPt a b c > 0`. -/
def detPt (a b c : Point) : ℚ :=
  (c.y - a.y) * (b.x - a.x) - (b.y - a.y) * (c.x - a.x)

/-- The point lies on the line with equation p * x + q * y = r. -/
def OnLine (p q r : ℚ) (pt : Point) : Prop :=
  p * pt.x + q * pt.y = r

/-- All four points lie on one common line (a non-degenerate line: its
normal vector (p, q) is nonzero). -/
def CollinearFour (a b c d : Point) : Prop :=
  ∃ p q r : ℚ, (p ≠ 0 ∨ q ≠ 0) ∧
    OnLine p q r a ∧ OnLine p q r b ∧ OnLine p q r c ∧ OnLine p q r d

/-- Insertion step of the sort producing the order statistics that
`np.nanpercentile` interpolates between. -/
def isortInsert (x : ℚ) : List ℚ → List ℚ
  | [] => [x]
  | y :: ys => if x ≤ y then x :: y :: ys else y :: isortInsert x ys

/-- Insertion sort of the non-NaN entries of a column. -/
def isort : List ℚ → List ℚ
  | [] => []
  | x :: xs => isortInsert x (isort xs)

/-- Translation of `np.nanmean(..., axis=0)` at one column (owlineplot.py
line 514): the arithmetic mean of the non-NaN entries, and NaN (`none`)
when every entry is NaN. -/
def nanmean (col : List (Option ℚ)) : Option ℚ :=
  let xs := col.filterMap id
  if xs.isEmpty then none else some (xs.sum / (xs.length : ℚ))

/-- Translation of `np.nanpercentile(..., q, axis=0)` at one column with
numpy's default linear interpolation (owlineplot.py line 539): with the
non-NaN entries sorted ascending as s of length n, the value at fractional
rank (n - 1) * q / 100 is s[k] + frac * (s[k+1] - s[k]) where k is the
floor of the rank and frac its fractional part; NaN when all entries are
NaN.  q is the percentage (25, 50 or 75 in `get_error_bar`). -/
def nanpercentile (q : ℕ) (col : List (Option ℚ)) : Option ℚ :=
  let s := isort (col.filterMap id)
  if s.isEmpty then none
  else
    let n := s.length
    let k : ℕ := (n - 1) * q / 100
    let frac : ℚ := (((n - 1) * q : ℕ) : ℚ) / 100 - (k : ℚ)
    let a := s.getD k 0
    let b := s.getD (k + 1) a
    some (a + frac * (b - a))

/-- Translation of `np.clip(v, lo, hi)`: numpy computes
`minimum(hi, maximum(v, lo))` and performs no check that lo ≤ hi. -/
def npclip (x lo hi : ℚ) : ℚ :=
  min hi (max x lo)

/-- Column-wise translation of `bottom = np.clip(mean - q1, 0, mean - q1)`
in `OWLinePlot.get_error_bar` (owlineplot.py lines 537-542), with
`mean = np.nanmean(data.X, axis=0)` from `__plot_group` (line 514); NaN
propagates through the subtraction and the clip. -/
def errorBottom (col : List (Option ℚ)) : Option ℚ :=
  match nanmean col, nanpercentile 25 col with
  | some m, some q1 => some (npclip (m - q1) 0 (m - q1))
  | _, _ => none

/-- Column-wise translation of `top = np.clip(q3 - mean, 0, q3 - mean)` in
`OWLinePlot.get_error_bar` (owlineplot.py lines 537-542). -/
def errorTop (col : List (Option ℚ)) : Option ℚ :=
  match nanmean col, nanpercentile 75 col with
  | some m, some q3 => some (npclip (q3 - m) 0 (q3 - m))
  | _, _ => none

/-- Translation of `mean = np.nanmean(data.X, axis=0)` over an N x M group
matrix (owlineplot.py line 514): rows are lists of length M, and the mean
curve is the per-column NaN-aware mean. -/
def meanCurve (M : ℕ) (rows : List (List (Option ℚ))) : List (Option ℚ) :=
  (List.range M).map (fun j => nanmean (rows.map (fun r => r.getD j none)))

/-- The keyboard-modifier state that `LinePlotGraph.select` reads through
`QApplication.keyboardModifiers()` (an ambient input the spec turns into
an explicit parameter). -/
structure KeyMods where
  ctrl : Bool
  alt : Bool
  shift : Bool
deriving DecidableEq

/-- Translation of the selection update in `LinePlotGraph.select(indices)`
(owlineplot.py lines 211-225): ctrl applies symmetric difference, else alt
applies set difference, else shift applies union, else the candidate list
replaces the selection.  The per-item pen updates around it carry no
selection-set content. -/
def applySelect (selection : Finset ℕ) (indices : List ℕ) (keys : KeyMods) :
    Finset ℕ :=
  if keys.ctrl then symmDiff selection indices.toFinset
  else if keys.alt then selection \ indices.toFinset
  else if keys.shift then selection ∪ indices.toFinset
  else indices.toFinset

/-- Mouse buttons distinguished by `LinePlotViewBox.mouseClickEvent`. -/
inductive MouseButton where
  | left
  | middle
  | right
deriving DecidableEq

/-- Translation of `LinePlotViewBox.mouseClickEvent` (owlineplot.py lines
176-181) combined with `LinePlotGraph.deselect_all` (lines 205-209): a
right-button click only triggers `autoRange`, leaving the selection
untouched and firing no notification; any other click on the view box
accepts the event and runs `deselect_all`, which clears the selection and
calls `selection_changed`.  The result pairs the new selection with
whether observers were notified; the modifier state is never consulted on
this path. -/
def mouseClickEvent (btn : MouseButton) (keys : KeyMods)
    (selection : Finset ℕ) : Finset ℕ × Bool :=
  if btn = MouseButton.right then (selection, false) else (∅, true)

/-- Translation of the `LinePlotDisplay` IntEnum (owlineplot.py lines
254-255). -/
inductive LinePlotDisplay where
  | RANGE_WITH_MEAN
  | INSTANCES
  | MEAN
  | INSTANCES_WITH_MEAN
deriving DecidableEq

/-- A materialized `LinePlotItem`: its positional `index` into the dataset
rows and the Orange instance `id` of its row — two distinct key spaces
(`_items` is keyed by index, `_items_by_id` by id). -/
structure ProfileItem where
  index : ℕ
  id : ℕ
deriving DecidableEq

/-- Translation of the per-profile body of
`OWLinePlot.__update_visibility_profiles` (owlineplot.py lines 560-576):
`selection = set(chain(self.selection, self.data_subset.ids if self.has_subset else []))`,
`selected = profile.index in selection`, and
`profile.setVisible(show_inst or selected and show_selection)`.
`dataSubset` is the id list of the subset table when one is connected;
`has_subset` is the truthiness of that table (nonempty). -/
def profileVisible (mode : LinePlotDisplay) (selection : List ℕ)
    (dataSubset : Option (List ℕ)) (p : ProfileItem) : Bool :=
  let hasSubset := dataSubset.elim false (fun ids => !ids.isEmpty)
  let sel := selection ++ (if hasSubset then dataSubset.getD [] else [])
  (decide (mode = LinePlotDisplay.INSTANCES)
      || decide (mode = LinePlotDisplay.INSTANCES_WITH_MEAN))
    || (decide (p.index ∈ sel) && decide (mode = LinePlotDisplay.RANGE_WITH_MEAN))

/-- The visibility rule in the words of the spec, for comparison with
`profileVisible`: visible iff the mode shows instances, or the mode is
RANGE_WITH_MEAN and the profile is selected or belongs to the subset —
subset membership being membership of the profile's row id in the subset
id set. -/
def specProfileVisible (mode : LinePlotDisplay) (selection : List ℕ)
    (dataSubset : Option (List ℕ)) (p : ProfileItem) : Bool :=
  decide (mode = LinePlotDisplay.INSTANCES)
    || decide (mode = LinePlotDisplay.INSTANCES_WITH_MEAN)
    || (decide (mode = LinePlotDisplay.RANGE_WITH_MEAN)
        && (decide (p.index ∈ selection) || decide (p.id ∈ dataSubset.getD [])))

/-- The dataset shape information `set_data` inspects: the number of rows
and the number of continuous attribute columns (`graph_variables`). -/
structure Dataset where
  numRows : ℕ
  numContinuous : ℕ
deriving DecidableEq

/-- The `OWLinePlot` state fields the load pipeline touches: the held data,
the selection list, whether the individual `LinePlotItem`s have been
materialized (`__profiles is not None`), whether the group aggregates have
been computed (`__groups is not None`), and whether the informational
`not_enough_attrs` message is showing. -/
structure LPState where
  data : Option Dataset
  selection : List ℕ
  profilesMaterialized : Bool
  groupsComputed : Bool
  notEnoughAttrs : Bool
deriving DecidableEq

/-- Translation of `OWLinePlot.__select_data_instances` (owlineplot.py
lines 591-596): a no-op when the data is absent or empty or the selection
is empty; otherwise the whole selection is cleared when
`max(self.selection) >= len(self.data)`, and the (possibly cleared)
selection is then pushed to the graph unchanged. -/
def selectDataInstances (numRows : ℕ) (selection : List ℕ) : List ℕ :=
  if numRows = 0 ∨ selection = [] then selection
  else if numRows ≤ selection.foldr max 0 then [] else selection

/-- The mode test `display_index in (LinePlotDisplay.INSTANCES,
LinePlotDisplay.INSTANCES_WITH_MEAN)` used by `_setup_plot` and
`__update_visibility_profiles`. -/
def showsInstances (m : LinePlotDisplay) : Bool :=
  decide (m = LinePlotDisplay.INSTANCES)
    || decide (m = LinePlotDisplay.INSTANCES_WITH_MEAN)

/-- Translation of the `OWLinePlot.set_data` load pipeline (owlineplot.py
lines 395-425) restricted to the `LPState` fields.  `clear()` resets
profiles, groups and the graph, and `self.selection = []`; with fewer than
one continuous attribute the data is dropped, the informational
`not_enough_attrs` message is shown and `commit()` runs on the empty
state; otherwise `openContext` restores the previously held selection for
a domain-matching dataset (`restored` — the context handler is framework
code outside this repository whose restore-on-match contract the spec
states), then `_setup_plot` materializes the individual profiles and runs
`__select_data_instances` exactly when the display mode is not MEAN
(directly through `_plot_profiles` for the two INSTANCES modes, lazily
from `__update_visibility_profiles` for RANGE_WITH_MEAN, and for no path
at all for MEAN), after which `commit()` reads the resulting selection. -/
def setData (d : Option Dataset) (restored : List ℕ)
    (mode : LinePlotDisplay) : LPState :=
  match d with
  | none => ⟨none, [], false, false, false⟩
  | some ds =>
    if ds.numContinuous < 1 then ⟨none, [], false, false, true⟩
    else
      let materialize := showsInstances mode
        || decide (mode = LinePlotDisplay.RANGE_WITH_MEAN)
      let sel := if materialize then selectDataInstances ds.numRows restored
        else restored
      ⟨some ds, sel, materialize, true, false⟩

/-- Whether `OWLinePlot.commit` (owlineplot.py lines 609-614) sends an
actual table on the selected-data output: it sends None unless
`self.data is not None and self.has_selection`. -/
def commitSendsSelected (st : LPState) : Bool :=
  decide (st.data ≠ none) && decide (st.selection ≠ [])

/-- Translation of numpy/Orange fancy row indexing `data[indices]`: the
rows at the given positions in the given order; any out-of-range position
raises IndexError, modelled as `none`. -/
def tableIndex {α : Type} (data : List α) : List ℕ → Option (List α)
  | [] => some []
  | i :: is =>
    match data[i]?, tableIndex data is with
    | some r, some rs => some (r :: rs)
    | _, _ => none

/-- Translation of the selected-data output of `OWLinePlot.commit`
(owlineplot.py lines 609-614) for loaded data: None when the selection is
empty, otherwise `self.data[self.selection]`.  The selection is a Python
set of row indices; listing it enumerates each member once, modelled in
ascending index order. -/
def commitSelected {α : Type} (data : List α) (sel : Finset ℕ) :
    Option (List α) :=
  if sel = ∅ then none else tableIndex data (sel.sort (· ≤ ·))

/-- Modelled from the spec: `create_annotated_table(data, selection)` is
imported from `Orange.widgets.utils.annotated_data` and its body is not
part of this repository; per the spec it returns the full table with one
added boolean column marking membership of each row index in the
selection, row order preserved. -/
def annotatedTable {α : Type} (data : List α) (sel : Finset ℕ) :
    List (α × Bool) :=
  data.enum.map (fun p => (p.2, decide (p.1 ∈ sel)))

/-- The cross-product sign tested by `ccw` is invariant under a cyclic
rotation of the three arguments. -/
theorem ccw_cyclic (a b c : Point) : ccw a b c = ccw b c a := by
  simp only [ccw]
  rw [decide_eq_decide]
  constructor <;> intro h <;> nlinarith [h]

/-- C8: for all points a, b, c, d the segment-intersection test is
symmetric in which pair is treated as the cutting line:
`intersects a b c d = intersects c d a b`. -/
theorem intersects_symm_pairs (a b c d : Point) :
    intersects a b c d = intersects c d a b := by
  simp only [intersects]
  rw [ccw_cyclic c a b, ccw_cyclic d a b, ccw_cyclic c d a, ccw_cyclic d a c,
    ccw_cyclic c d b, ccw_cyclic d b c, Bool.and_comm]

/-- Three points on one common non-degenerate line span a degenerate
triangle: the `ccw` determinant vanishes. -/
theorem detPt_eq_zero_of_onLine {p q r : ℚ} (hpq : p ≠ 0 ∨ q ≠ 0)
    {x y z : Point} (hx : OnLine p q r x) (hy : OnLine p q r y)
    (hz : OnLine p q r z) : detPt x y z = 0 := by
  have h1 : p * (y.x - x.x) + q * (y.y - x.y) = 0 := by
    unfold OnLine at hx hy
    linear_combination hy - hx
  have h2 : p * (z.x - x.x) + q * (z.y - x.y) = 0 := by
    unfold OnLine at hx hz
    linear_combination hz - hx
  rcases hpq with hp | hq
  · have hpd : p * detPt x y z = 0 := by
      unfold detPt
      linear_combination (z.y - x.y) * h1 - (y.y - x.y) * h2
    exact (mul_eq_zero.mp hpd).resolve_left hp
  · have hqd : q * detPt x y z = 0 := by
      unfold detPt
      linear_combination (-(z.x - x.x)) * h1 + (y.x - x.x) * h2
    exact (mul_eq_zero.mp hqd).resolve_left hq

/-- A vanishing determinant makes the strict `ccw` comparison false. -/
theorem ccw_eq_false_of_detPt_eq_zero {x y z : Point}
    (h : detPt x y z = 0) : ccw x y z = false := by
  simp only [ccw, decide_eq_false_iff_not, not_lt]
  unfold detPt at h
  linarith

/-- C10: for all points a, b, c, d lying on one common line the
segment-intersection test returns false, overlapping collinear segments
included. -/
theorem intersects_collinear_false (a b c d : Point)
    (h : CollinearFour a b c d) : intersects a b c d = false := by
  obtain ⟨p, q, r, hpq, ha, hb, hc, hd⟩ := h
  have h1 : ccw a c d = false :=
    ccw_eq_false_of_detPt_eq_zero (detPt_eq_zero_of_onLine hpq ha hc hd)
  have h2 : ccw b c d = false :=
    ccw_eq_false_of_detPt_eq_zero (detPt_eq_zero_of_onLine hpq hb hc hd)
  simp [intersects, h1, h2]

/-- Witness for `intersects_collinear_false`: the overlapping x-axis
segments (0,0)-(2,0) and (1,0)-(3,0), all four endpoints on the line
0 * x + 1 * y = 0. -/
theorem intersects_collinear_false_witness :
    CollinearFour ⟨0, 0⟩ ⟨2, 0⟩ ⟨1, 0⟩ ⟨3, 0⟩ ∧
      intersects ⟨0, 0⟩ ⟨2, 0⟩ ⟨1, 0⟩ ⟨3, 0⟩ = false := by
  have hcol : CollinearFour ⟨0, 0⟩ ⟨2, 0⟩ ⟨1, 0⟩ ⟨3, 0⟩ :=
    ⟨0, 1, 0, Or.inr one_ne_zero, by norm_num [OnLine], by norm_num [OnLine],
      by norm_num [OnLine], by norm_num [OnLine]⟩
  exact ⟨hcol, intersects_collinear_false _ _ _ _ hcol⟩

/-- C1: `np.clip(v, 0, v)` is `min(v, max(v, 0))`, which equals v for every
v, so `get_error_bar` never actually clamps.  On the single-column group
[0, 9, 10, 10, 10] the NaN-aware mean is 39/5 and the 25th percentile is
9, and the produced bottom extent is the negative value -6/5 — whereas the
claimed `max(0, mean - q1)` is 0 there. -/
theorem errorBar_negative_at_skewed_input :
    errorBottom [some 0, some 9, some 10, some 10, some 10] =
        some (-(6 / 5)) ∧
      ¬ (0 : ℚ) ≤ -(6 / 5) ∧ max 0 ((39 : ℚ) / 5 - 9) = 0 := by
  refine ⟨?_, by norm_num, by norm_num⟩
  norm_num [errorBottom, nanmean, nanpercentile, isort, isortInsert, npclip,
    min_def, max_def, List.filterMap_cons, id_eq]

/-- C2: with display mode MEAN the load pipeline never materializes the
individual profiles, so `__select_data_instances` — and with it the
`max(selection) >= len(data)` reset guard — is skipped: loading a 1-row
dataset while the context-restored selection is [5] leaves the
out-of-range index 5 in the selection that `commit` then consumes
(`self.data[self.selection]`), instead of resetting the selection to
empty. -/
theorem staleSelection_survives_mean_mode :
    (setData (some ⟨1, 1⟩) [5] LinePlotDisplay.MEAN).selection = [5] ∧
      (setData (some ⟨1, 1⟩) [5] LinePlotDisplay.MEAN).data = some ⟨1, 1⟩ ∧
      ¬ 5 < (1 : ℕ) := by
  exact ⟨rfl, rfl, by norm_num⟩

/-- C3 counterexample: in mode RANGE_WITH_MEAN the code tests the profile
INDEX against the raw subset ids.  A profile with index 0 and instance id
100, with empty selection and subset ids [100], belongs to the subset —
the spec rule makes it visible — but the code leaves it hidden. -/
theorem profileVisible_id_mismatch :
    specProfileVisible LinePlotDisplay.RANGE_WITH_MEAN [] (some [100])
        ⟨0, 100⟩ = true ∧
      profileVisible LinePlotDisplay.RANGE_WITH_MEAN [] (some [100])
        ⟨0, 100⟩ = false := by
  exact ⟨rfl, rfl⟩

/-- C3 (amended): an individual profile is visible iff the mode is
INSTANCES or INSTANCES_WITH_MEAN, or the mode is RANGE_WITH_MEAN and the
profile's positional index occurs in the selection or occurs in the
subset table's id list — the code compares the index, not the profile's
row id, against the subset ids. -/
theorem profileVisible_iff_amended (mode : LinePlotDisplay)
    (selection : List ℕ) (dataSubset : Option (List ℕ)) (p : ProfileItem) :
    profileVisible mode selection dataSubset p = true ↔
      (mode = LinePlotDisplay.INSTANCES ∨
        mode = LinePlotDisplay.INSTANCES_WITH_MEAN ∨
        (mode = LinePlotDisplay.RANGE_WITH_MEAN ∧
          (p.index ∈ selection ∨ p.index ∈ dataSubset.getD []))) := by
  cases dataSubset with
  | none => cases mode <;> simp [profileVisible]
  | some ids =>
    rcases eq_or_ne ids [] with rfl | hne
    · cases mode <;> simp [profileVisible]
    · cases mode <;> simp [profileVisible, hne]

/-- C4: `LinePlotGraph.select` implements the four modifier policies as the
exact set operations — no modifier replaces the selection with the
candidates, ctrl takes the symmetric difference, alt the difference, and
shift the union. -/
theorem applySelect_modifier_semantics (S : Finset ℕ) (C : List ℕ) :
    applySelect S C ⟨false, false, false⟩ = C.toFinset ∧
      applySelect S C ⟨true, false, false⟩ = symmDiff S C.toFinset ∧
      applySelect S C ⟨false, true, false⟩ = S \ C.toFinset ∧
      applySelect S C ⟨false, false, true⟩ = S ∪ C.toFinset :=
  ⟨rfl, rfl, rfl, rfl⟩

/-- C9: a left click on empty plot space clears the selection and notifies
observers, whatever modifiers are held — the modifier state is never read
on that path. -/
theorem mouseClick_left_clears_selection (keys : KeyMods) (S : Finset ℕ) :
    mouseClickEvent MouseButton.left keys S = (∅, true) :=
  rfl

/-- Fancy indexing with every index in range cannot raise. -/
theorem tableIndex_isSome {α : Type} (data : List α) (idxs : List ℕ)
    (h : ∀ i ∈ idxs, i < data.length) :
    (tableIndex data idxs).isSome = true := by
  induction idxs with
  | nil => rfl
  | cons i is ih =>
    have hi : i < data.length := h i (List.mem_cons_self i is)
    have hrest := ih (fun j hj => h j (List.mem_cons_of_mem i hj))
    obtain ⟨l, hl⟩ := Option.isSome_iff_exists.mp hrest
    simp [tableIndex, List.getElem?_eq_getElem hi, hl]

/-- Enumerating a set of in-range indices in ascending order is the same as
filtering the positions 0..N-1 by membership. -/
theorem sort_eq_filter_range (sel : Finset ℕ) (N : ℕ)
    (h : ∀ i ∈ sel, i < N) :
    sel.sort (· ≤ ·) = (List.range N).filter (fun i => decide (i ∈ sel)) := by
  have hperm :
      (sel.sort (· ≤ ·)).Perm
        ((List.range N).filter (fun i => decide (i ∈ sel))) := by
    apply (List.perm_ext_iff_of_nodup (Finset.sort_nodup _ _)
      ((List.nodup_range N).filter _)).mpr
    intro a
    simp only [Finset.mem_sort, List.mem_filter, List.mem_range,
      decide_eq_true_eq]
    exact ⟨fun ha => ⟨h a ha, ha⟩, fun ha => ha.2⟩
  exact List.eq_of_perm_of_sorted hperm (Finset.sort_sorted _ _)
    (((List.pairwise_lt_range N).filter _).imp le_of_lt)

/-- C5: the commit projection yields no selected table exactly on the empty
selection (and then every annotated flag is false), and on a nonempty
in-range selection it yields the rows at exactly the selected indices in
ascending index order, never failing. -/
theorem commit_projection_correct :
    (∀ data : List ℕ, commitSelected data ∅ = none ∧
        ∀ pr ∈ annotatedTable data ∅, pr.2 = false) ∧
      ∀ (data : List ℕ) (sel : Finset ℕ), sel ≠ ∅ →
        (∀ i ∈ sel, i < data.length) →
        commitSelected data sel =
            tableIndex data
              ((List.range data.length).filter (fun i => decide (i ∈ sel))) ∧
          (commitSelected data sel).isSome = true := by
  constructor
  · intro data
    constructor
    · simp [commitSelected]
    · intro pr hpr
      simp only [annotatedTable, List.mem_map] at hpr
      obtain ⟨q, hq, rfl⟩ := hpr
      simp
  · intro data sel hne hin
    have hs := sort_eq_filter_range sel data.length hin
    constructor
    · rw [commitSelected, if_neg hne, hs]
    · rw [commitSelected, if_neg hne]
      apply tableIndex_isSome
      intro i hi
      exact hin i ((Finset.mem_sort _).mp hi)

/-- Witness for `commit_projection_correct` at the table [10, 20, 30] with
selection {0, 2} and with the empty selection. -/
theorem commit_projection_correct_witness :
    commitSelected [10, 20, 30] ({0, 2} : Finset ℕ) = some [10, 30] ∧
      commitSelected ([10, 20, 30] : List ℕ) ∅ = none ∧
      ∀ pr ∈ annotatedTable ([10, 20, 30] : List ℕ) ∅, pr.2 = false := by
  have h := commit_projection_correct
  refine ⟨?_, (h.1 [10, 20, 30]).1, (h.1 [10, 20, 30]).2⟩
  have h2 := (h.2 [10, 20, 30] {0, 2} (by decide) (by decide)).1
  rw [h2]
  rfl

/-- C6: loading a dataset with zero continuous columns drops the data,
leaves the selection empty and the profiles and group aggregates
uncomputed, raises only the informational `not_enough_attrs` message, and
the commit that follows sends no selected data. -/
theorem setData_no_continuous_invalid (ds : Dataset) (restored : List ℕ)
    (mode : LinePlotDisplay) (h : ds.numContinuous = 0) :
    setData (some ds) restored mode = ⟨none, [], false, false, true⟩ ∧
      commitSendsSelected (setData (some ds) restored mode) = false := by
  have hq : setData (some ds) restored mode = ⟨none, [], false, false, true⟩ := by
    simp [setData, h]
  refine ⟨hq, ?_⟩
  rw [hq]
  rfl

/-- Witness for `setData_no_continuous_invalid`: a 3-row dataset with no
continuous columns, a stale candidate selection and mode RANGE_WITH_MEAN. -/
theorem setData_no_continuous_invalid_witness :
    setData (some ⟨3, 0⟩) [1, 2] LinePlotDisplay.RANGE_WITH_MEAN =
        ⟨none, [], false, false, true⟩ ∧
      commitSendsSelected
          (setData (some ⟨3, 0⟩) [1, 2] LinePlotDisplay.RANGE_WITH_MEAN) =
        false :=
  setData_no_continuous_invalid ⟨3, 0⟩ [1, 2] LinePlotDisplay.RANGE_WITH_MEAN
    rfl

/-- `np.nanmean` of a one-entry column is that entry, NaN included. -/
theorem nanmean_single (x : Option ℚ) : nanmean [x] = x := by
  cases x <;> simp [nanmean]

/-- C7: the group mean curve is the column-wise NaN-ignoring arithmetic
mean, it is NaN on an all-NaN column, and on a single-profile group it
reproduces that profile's values exactly, NaN positions included. -/
theorem nanmean_spec_single_profile :
    (∀ col : List (Option ℚ), (∀ x ∈ col, x = none) → nanmean col = none) ∧
      (∀ col : List (Option ℚ), col.filterMap id ≠ [] →
        nanmean col =
          some ((col.filterMap id).sum / ((col.filterMap id).length : ℚ))) ∧
      ∀ row : List (Option ℚ), meanCurve row.length [row] = row := by
  refine ⟨?_, ?_, ?_⟩
  · intro col h
    have hnil : col.filterMap id = [] :=
      List.filterMap_eq_nil_iff.mpr (fun a ha => by simp [h a ha])
    simp [nanmean, hnil]
  · intro col h
    simp [nanmean, List.isEmpty_iff, h]
  · intro row
    simp only [meanCurve, List.map_cons, List.map_nil, nanmean_single]
    apply List.ext_getElem
    · simp
    · intro n h1 h2
      simp [List.getD_eq_getElem?_getD, List.getElem?_eq_getElem, h2]

/-- Witness for `nanmean_spec_single_profile`: an all-NaN column, the
column [1, NaN, 3] with mean 2, and the single profile [1, NaN]. -/
theorem nanmean_spec_single_profile_witness :
    nanmean [none, none] = none ∧
      nanmean [some 1, none, some 3] = some 2 ∧
      meanCurve 2 [[some 1, none]] = [some 1, none] := by
  have h := nanmean_spec_single_profile
  refine ⟨h.1 [none, none] (by simp), ?_, h.2.2 [some 1, none]⟩
  have hm := h.2.1 [some 1, none, some 3] (by simp [List.filterMap_cons])
  rw [hm]
  norm_num [List.filterMap_cons, id_eq]
